import Mathlib

/-!
Verification of the dialogue-engine knowledge-consistency core.

This file gives a shallow embedding of the world-state store
(`world_state.py`) and the claim-validation pipeline (`fact_checker.py`)
and proves the behavioural properties claimed of them.  Python dicts are
modelled as insertion-ordered association lists, sets as duplicate-free
lists with membership, exceptions as `Except`, and mutation as explicit
state passing.
-/

namespace DialogueEngine

/-- A factual claim extracted from dialogue (`Claim` in fact_checker.py). -/
structure Claim where
  claim_text : String
  category : String
  key : String
  value : String
deriving Repr, DecidableEq

/-- Result of validating a claim against world state (`ValidationResult`). -/
structure ValidationResult where
  is_valid : Bool
  claim : Claim
  reason : String
  world_truth : Option String
  is_lie : Bool
  is_omission : Bool
deriving Repr, DecidableEq

/-- A fact in the game world (`Fact` in world_state.py). -/
structure Fact where
  key : String
  value : String
  category : String
  timestamp : Option String
  source : String
  is_public : Bool
  witnesses : List String
  event_id : Option String
  schedule_day : Option Int
  schedule_period : Option String
deriving Repr, DecidableEq

/-- An event in the game world (`Event` in world_state.py). -/
structure Event where
  event_id : String
  description : String
  timestamp : String
  location : String
  participants : List String
  witnesses : List String
  details : List (String × String)
  sequence_order : Int
  caused_by : Option String
deriving Repr, DecidableEq

/-- A relationship between two characters (`Relationship`). -/
structure Relationship where
  character_a : String
  character_b : String
  relationship_type : String
  description : String
  strength : Int
  is_public : Bool
deriving Repr, DecidableEq

/-- A (day, period) time coordinate (`TimeBlock`). -/
structure TimeBlock where
  day : Int
  period : String
deriving Repr, DecidableEq

/-- What an NPC was doing during a time block (`NPCScheduleEntry`). -/
structure NPCScheduleEntry where
  character : String
  time_block : TimeBlock
  location : String
  activity : String
  with_characters : List String
  is_public : Bool
  witnesses : List String
  notes : String
deriving Repr, DecidableEq

/-- The fixed ordered list of canonical time periods set in
`WorldState.__init__`. -/
def time_periods : List String :=
  ["early_morning", "morning", "noon", "afternoon", "evening", "late_night", "overnight"]

/-- The world state (`WorldState.__init__`): dicts become ordered
association lists, sets become duplicate-free lists. -/
structure WorldState where
  facts : List (String × Fact)
  events : List (String × Event)
  relationships : List Relationship
  locations : List String
  characters : List String
  npc_schedules : List (String × List NPCScheduleEntry)
  current_day : Int
  current_period : String
deriving Repr, DecidableEq

/-- The freshly constructed world state. -/
def initialWorldState : WorldState :=
  { facts := [], events := [], relationships := [], locations := [],
    characters := [], npc_schedules := [], current_day := 1,
    current_period := "afternoon" }

/-- Python dict assignment `d[k] = v`: replace in place if the key is
present, otherwise append. -/
def alistInsert {α : Type} (k : String) (v : α) (l : List (String × α)) :
    List (String × α) :=
  if l.any (fun p => p.1 == k) then
    l.map (fun p => if p.1 == k then (k, v) else p)
  else
    l ++ [(k, v)]

/-- Python set `add`: insert if absent. -/
def setAdd (x : String) (l : List String) : List String :=
  if l.contains x then l else l ++ [x]

/-- Python `str.lower()` for the ASCII strings the engine handles:
lower-case every character. -/
def strToLower (s : String) : String := String.mk (s.data.map Char.toLower)

/-- Embeds `WorldState.add_fact`: add or overwrite a fact under its key. -/
def addFact (ws : WorldState) (key value category : String) (is_public : Bool)
    (witnesses : List String) (source : String) (timestamp : Option String)
    (event_id : Option String) (schedule_day : Option Int)
    (schedule_period : Option String) : WorldState :=
  let f : Fact :=
    { key := key, value := value, category := category,
      timestamp := timestamp, source := source, is_public := is_public,
      witnesses := witnesses, event_id := event_id,
      schedule_day := schedule_day, schedule_period := schedule_period }
  { ws with facts := alistInsert key f ws.facts }

/-- Embeds `WorldState.get_fact`: value lookup by key. -/
def getFact (ws : WorldState) (key : String) : Option String :=
  (ws.facts.lookup key).map (fun f => f.value)

/-- Embeds `WorldState.character_knows_fact`. -/
def characterKnowsFact (ws : WorldState) (character : String)
    (fact_key : String) : Bool :=
  match ws.facts.lookup fact_key with
  | none => false
  | some fact =>
    if fact.is_public then true
    else if fact.witnesses.contains character then true
    else false

/-- Embeds `WorldState.add_location`. -/
def addLocation (ws : WorldState) (location : String) : WorldState :=
  { ws with locations := setAdd location ws.locations }

/-- Embeds `WorldState.add_character`: register the character and ensure a
schedule list exists for it. -/
def addCharacter (ws : WorldState) (character : String) : WorldState :=
  let ws1 := { ws with characters := setAdd character ws.characters }
  if ws1.npc_schedules.any (fun p => p.1 == character) then ws1
  else { ws1 with npc_schedules := ws1.npc_schedules ++ [(character, [])] }

/-- Embeds `WorldState.add_event`: record the event and track its location and
participating characters. -/
def addEvent (ws : WorldState) (event_id description timestamp location : String)
    (participants witnesses : List String) (details : List (String × String))
    (sequence_order : Int) (caused_by : Option String) : WorldState :=
  let ev : Event :=
    { event_id := event_id, description := description,
      timestamp := timestamp, location := location,
      participants := participants, witnesses := witnesses,
      details := details, sequence_order := sequence_order,
      caused_by := caused_by }
  let ws1 := { ws with events := alistInsert event_id ev ws.events }
  let ws2 := { ws1 with locations := setAdd location ws1.locations }
  let ws3 := { ws2 with characters :=
      participants.foldl (fun acc c => setAdd c acc) ws2.characters }
  { ws3 with characters :=
      witnesses.foldl (fun acc c => setAdd c acc) ws3.characters }

/-- Embeds `WorldState.add_relationship`. -/
def addRelationship (ws : WorldState) (char_a char_b rel_type description : String)
    (strength : Int) (is_public : Bool) : WorldState :=
  let r : Relationship :=
    { character_a := char_a, character_b := char_b,
      relationship_type := rel_type, description := description,
      strength := strength, is_public := is_public }
  let ws1 := { ws with relationships := ws.relationships ++ [r] }
  let ws2 := { ws1 with characters := setAdd char_a ws1.characters }
  { ws2 with characters := setAdd char_b ws2.characters }

/-- One step of the companion loop in `add_schedule_entry`: add a name to
the witness list if it is not already there. -/
def witnessAdd (acc : List String) (companion : String) : List String :=
  if acc.contains companion then acc else acc ++ [companion]

/-- Append an entry to the schedule list stored under `character`
(`self.npc_schedules[character].append(entry)`). -/
def schedAppend (character : String) (entry : NPCScheduleEntry)
    (l : List (String × List NPCScheduleEntry)) :
    List (String × List NPCScheduleEntry) :=
  l.map (fun p => if p.1 == character then (p.1, p.2 ++ [entry]) else p)

/-- Embeds `WorldState.add_schedule_entry`: rejects a non-canonical period with a
`ValueError` (modelled as `Except.error`) before any mutation; on success
registers the character, seeds the witness list with the character and all
companions, and appends the entry. -/
def addScheduleEntry (ws : WorldState) (character : String) (day : Int)
    (period location activity : String) (with_characters : List String)
    (is_public : Bool) (witnesses : List String) (notes : String) :
    Except String WorldState :=
  if time_periods.contains period = false then
    Except.error ("Invalid period " ++ period)
  else
    let ws1 := addCharacter ws character
    let time_block : TimeBlock := { day := day, period := period }
    let w1 := if witnesses.contains character then witnesses
              else witnesses ++ [character]
    let all_witnesses := with_characters.foldl witnessAdd w1
    let entry : NPCScheduleEntry :=
      { character := character, time_block := time_block,
        location := location, activity := activity,
        with_characters := with_characters, is_public := is_public,
        witnesses := all_witnesses, notes := notes }
    let newScheds := schedAppend character entry ws1.npc_schedules
    Except.ok ({ ws1 with npc_schedules := newScheds })

/-- Position of a period in the canonical ordering
(`self.time_periods.index(...)` in the sort key). -/
def periodIndex (p : String) : Nat := time_periods.indexOf p

/-- Stable insertion into a sorted list: the new element goes after every
element it is not strictly smaller than, so elements with equal keys keep
their original relative order. -/
def insertSorted {α : Type} (le : α → α → Bool) (x : α) : List α → List α
  | [] => [x]
  | y :: ys => if le y x then y :: insertSorted le x ys else x :: y :: ys

/-- Python's `sorted` (a stable sort by a total key comparison), modelled
as stable insertion sort; for a total preorder the stable sorted result
is unique, so this is extensionally the same function. -/
def pySorted {α : Type} (le : α → α → Bool) (l : List α) : List α :=
  l.foldl (fun acc x => insertSorted le x acc) []

/-- The sort key comparison used by `get_character_schedule`:
ordering by `(day, period-index)`. -/
def scheduleKeyLe (a b : NPCScheduleEntry) : Bool :=
  (a.time_block.day < b.time_block.day) ||
  (a.time_block.day == b.time_block.day &&
    periodIndex a.time_block.period ≤ periodIndex b.time_block.period)

/-- Embeds `WorldState.get_character_schedule`: entries of a character,
optionally filtered by day, stably sorted by `(day, period-index)`. -/
def getCharacterSchedule (ws : WorldState) (character : String)
    (day : Option Int) : List NPCScheduleEntry :=
  match ws.npc_schedules.lookup character with
  | none => []
  | some entries =>
    let filtered : List NPCScheduleEntry :=
      match day with
      | some d => entries.filter (fun e => e.time_block.day == d)
      | none => entries
    pySorted scheduleKeyLe filtered

/-- Embeds `WorldState.get_character_location_at_time`: location of the first
schedule entry for that day whose period matches, absent otherwise. -/
def getCharacterLocationAtTime (ws : WorldState) (character : String)
    (day : Int) (period : String) : Option String :=
  ((getCharacterSchedule ws character (some day)).find?
    (fun e => e.time_block.period == period)).map (fun e => e.location)

/-- Embeds `WorldState.verify_character_claim_time_location`. -/
def verifyCharacterClaimTimeLocation (ws : WorldState) (character : String)
    (claimed_location : String) (day : Int) (period : String) :
    Bool × Option String :=
  match getCharacterLocationAtTime ws character day period with
  | none => (true, none)
  | some actual =>
    (strToLower actual == strToLower claimed_location, some actual)

/-!
Claim extraction (`FactChecker.extract_claims_from_statement`).

The six regex patterns of the source are hand-compiled to matchers over
`List Char`.  Each matcher anchors at the start of its input and returns
`(group1, rest)` on success; `finditer` reproduces `re.finditer`'s
left-to-right non-overlapping scan.  All literal comparisons are
case-insensitive, as the source compiles every pattern with
`re.IGNORECASE`.  Backtracking in the source patterns only arises for
greedy `\w+`/`\d\x7b1,2\x7d` followed by more pattern, and is reproduced
by trying the longest alternative first.
-/

/-- The class `\w` for the ASCII statements the engine processes. -/
def isWordChar (c : Char) : Bool := c.isAlpha || c.isDigit || c == '_'

/-- The class `\s` for the ASCII statements the engine processes. -/
def isSpaceChar (c : Char) : Bool :=
  c == ' ' || c == '\t' || c == '\n' || c == '\r'

/-- Case-insensitive literal match; returns the remaining input. -/
def matchLit : List Char → List Char → Option (List Char)
  | [], s => some s
  | _ :: _, [] => none
  | p :: ps, c :: cs =>
    if c.toLower == p.toLower then matchLit ps cs else none

/-- Ordered alternation of case-insensitive literals (Python alternation
tries alternatives left to right). -/
def firstLit (lits : List (List Char)) (s : List Char) : Option (List Char) :=
  match lits with
  | [] => none
  | l :: ls =>
    match matchLit l s with
    | some r => some r
    | none => firstLit ls s

/-- Greedy `(\w+)`: the maximal nonempty run of word characters, with the
rest of the input. -/
def wplus (s : List Char) : Option (List Char × List Char) :=
  let run := s.takeWhile isWordChar
  if run.isEmpty then none else some (run, s.drop run.length)

/-- Matcher for `(?:the )?(\w+)`: greedy optional article, backtracking to the bare
word if the article consumes the only word run. -/
def theGroup (s : List Char) : Option (List Char × List Char) :=
  match matchLit "the ".toList s with
  | some rest =>
    match wplus rest with
    | some r => some r
    | none => wplus s
  | none => wplus s

/-- Matcher for `(?:in|at) (?:the )?(\w+)`, the common tail of both location
patterns. -/
def inAtTheGroup (s : List Char) : Option (List Char × List Char) :=
  match firstLit ["in ".toList, "at ".toList] s with
  | some rest => theGroup rest
  | none => none

/-- Backtracking for `(?:\w+ )?` followed by `cont`: try run lengths from
the greedy maximum down to one (each must be followed by a space), then
the empty option. -/
def optWordSpaceGo {α : Type} (cont : List Char → Option α) (s : List Char) :
    Nat → Option α
  | 0 => cont s
  | Nat.succ k =>
    match
      (match s.drop (Nat.succ k) with
       | ' ' :: rest => cont rest
       | _ => none) with
    | some r => some r
    | none => optWordSpaceGo cont s k

/-- Matcher for `(?:\w+ )?` then `cont`, with Python's greedy-first backtracking. -/
def optWordSpaceThen {α : Type} (cont : List Char → Option α)
    (s : List Char) : Option α :=
  optWordSpaceGo cont s (s.takeWhile isWordChar).length

/-- Location pattern 1:
`(?:I (?:was|am)|he (?:was|is)|she (?:was|is)|they (?:were|are)) (?:in|at) (?:the )?(\w+)`. -/
def p1Match (s : List Char) : Option (List Char × List Char) :=
  match firstLit
      (["i was ", "i am ", "he was ", "he is ", "she was ", "she is ",
        "they were ", "they are "].map String.toList) s with
  | some rest => inAtTheGroup rest
  | none => none

/-- Location pattern 2:
`(?:saw|found|met) (?:\w+ )?(?:in|at) (?:the )?(\w+)`. -/
def p2Match (s : List Char) : Option (List Char × List Char) :=
  match firstLit (["saw ", "found ", "met "].map String.toList) s with
  | some rest => optWordSpaceThen inAtTheGroup rest
  | none => none

/-- Matcher for `:\d\x7b2\x7d`, the optional minutes part of the clock pattern. -/
def colonDigits2 (s : List Char) : Option (List Char) :=
  match s with
  | ':' :: a :: b :: r => if a.isDigit && b.isDigit then some r else none
  | _ => none

/-- Matcher for `\s*(?:am|pm)`: greedy whitespace then the meridiem. -/
def t1Tail (s : List Char) : Option (List Char) :=
  firstLit ["am".toList, "pm".toList] (s.dropWhile isSpaceChar)

/-- Matcher for `(?::\d\x7b2\x7d)?\s*(?:am|pm)`: greedy optional minutes with
backtracking. -/
def t1AfterDigits (s : List Char) : Option (List Char) :=
  match (colonDigits2 s).bind t1Tail with
  | some r => some r
  | none => t1Tail s

/-- Matcher for `\d\x7b1,2\x7d` then the rest of the clock body: two digits are tried
before one. -/
def t1Digits (s : List Char) : Option (List Char) :=
  match s with
  | [] => none
  | [a] => if a.isDigit then t1AfterDigits [] else none
  | a :: b :: r =>
    if a.isDigit then
      match (if b.isDigit then t1AfterDigits r else none) with
      | some res => some res
      | none => t1AfterDigits (b :: r)
    else none

/-- Time pattern 1: `at (\d\x7b1,2\x7d(?::\d\x7b2\x7d)?\s*(?:am|pm))`;
group 1 is everything after the "at ". -/
def t1Match (s : List Char) : Option (List Char × List Char) :=
  match matchLit "at ".toList s with
  | some s1 =>
    match t1Digits s1 with
    | some rest => some (s1.take (s1.length - rest.length), rest)
    | none => none
  | none => none

/-- Time pattern 2: `(last night|this morning|yesterday|tonight)`. -/
def t2Match (s : List Char) : Option (List Char × List Char) :=
  match firstLit
      (["last night", "this morning", "yesterday", "tonight"].map
        String.toList) s with
  | some rest => some (s.take (s.length - rest.length), rest)
  | none => none

/-- Person pattern 1: `(?:saw|met|spoke with|talked to) (\w+)`. -/
def r1Match (s : List Char) : Option (List Char × List Char) :=
  match firstLit
      (["saw ", "met ", "spoke with ", "talked to "].map String.toList) s with
  | some rest => wplus rest
  | none => none

/-- Person pattern 2: `(\w+) (?:was|is) (?:there|here|present)`.  A shrunk
`\w+` would leave a word character where the space must match, so only the
maximal run is viable. -/
def r2Match (s : List Char) : Option (List Char × List Char) :=
  match wplus s with
  | none => none
  | some (g, r1) =>
    match firstLit [" was ".toList, " is ".toList] r1 with
    | none => none
    | some r2 =>
      match firstLit (["there", "here", "present"].map String.toList) r2 with
      | none => none
      | some r3 => some (g, r3)

/-- The scan loop of `re.finditer`, structurally recursive on a fuel
bound: at each position record `(group0, group1)` on a match and resume
after the matched text, otherwise advance one character.  Every step
shortens the input, so fuel equal to the input length is never
exhausted.  None of the source patterns can match the empty string. -/
def finditerAux (m : List Char → Option (List Char × List Char)) :
    Nat → List Char → List (List Char × List Char)
  | 0, _ => []
  | _ + 1, [] => []
  | fuel + 1, c :: cs =>
    match m (c :: cs) with
    | some (g, rest) =>
      if rest.length < cs.length + 1 then
        ((c :: cs).take (cs.length + 1 - rest.length), g) ::
          finditerAux m fuel rest
      else
        finditerAux m fuel cs
    | none => finditerAux m fuel cs

/-- Embeds `re.finditer`: left-to-right non-overlapping scan. -/
def finditer (m : List Char → Option (List Char × List Char))
    (s : List Char) : List (List Char × List Char) :=
  finditerAux m s.length s

/-- Embeds `FactChecker.extract_claims_from_statement`: run the location, time
and person patterns in source order; person mentions are kept only when
the matched token is literally a registered character. -/
def extractClaims (characters : List String) (statement : String) :
    List Claim :=
  let s := statement.toList
  let locClaims :=
    (finditer p1Match s ++ finditer p2Match s).map
      (fun wg => Claim.mk (String.mk wg.1) "location" "mentioned_location"
        (String.mk wg.2))
  let timeClaims :=
    (finditer t1Match s ++ finditer t2Match s).map
      (fun wg => Claim.mk (String.mk wg.1) "time" "mentioned_time"
        (String.mk wg.2))
  let personClaims :=
    (finditer r1Match s ++ finditer r2Match s).filterMap
      (fun wg =>
        if characters.contains (String.mk wg.2) then
          some (Claim.mk (String.mk wg.1) "person" "mentioned_person"
            (String.mk wg.2))
        else none)
  locClaims ++ timeClaims ++ personClaims

/-!
The claim validator (`FactChecker` in fact_checker.py).  The Python
object holds a reference to the world state and a mutable validation
history; both are carried in a record and threaded explicitly.
-/

/-- The fact checker's state. -/
structure FactChecker where
  world_state : WorldState
  validation_history : List ValidationResult
deriving Repr, DecidableEq

/-- Embeds `FactChecker.validate_claim`.  The two intentional branches return
early, before the history append; only the four world-state branches
reach `self.validation_history.append(result)`.  The `character`
argument is accepted and unused, as in the source. -/
def validateClaim (fc : FactChecker) (claim : Claim) (character : String)
    (is_intentional_lie : Bool) (is_intentional_omission : Bool) :
    ValidationResult × FactChecker :=
  if is_intentional_lie then
    (ValidationResult.mk true claim "Intentional lie by character" none
      true false, fc)
  else if is_intentional_omission then
    (ValidationResult.mk true claim "Intentional omission by character" none
      false true, fc)
  else
    let result : ValidationResult :=
      if claim.category == "location" then
        if (fc.world_state.locations.map strToLower).contains
            (strToLower claim.value) then
          ValidationResult.mk true claim "Location exists in world"
            (some claim.value) false false
        else
          ValidationResult.mk false claim
            ("Location " ++ claim.value ++ " does not exist in world state")
            none false false
      else if claim.category == "person" then
        if fc.world_state.characters.contains claim.value then
          ValidationResult.mk true claim "Character exists in world"
            (some claim.value) false false
        else
          ValidationResult.mk false claim
            ("Character " ++ claim.value ++ " does not exist in world state")
            none false false
      else
        match fc.world_state.facts.lookup claim.key with
        | some fact =>
          if strToLower fact.value == strToLower claim.value then
            ValidationResult.mk true claim "Matches world state fact"
              (some fact.value) false false
          else
            ValidationResult.mk false claim
              ("Contradicts world state. Truth: " ++ fact.value)
              (some fact.value) true false
        | none =>
          ValidationResult.mk true claim "No contradiction with known facts"
            none false false
    (result,
      { fc with validation_history := fc.validation_history ++ [result] })

/-- The claim loop of `FactChecker.validate_statement`: thread the
checker through `validate_claim`, collect results, and clear the overall
flag on any result that is invalid and not flagged as a lie. -/
def validateLoop (character : String)
    (marked_lies marked_omissions : List String) :
    FactChecker → List Claim → Bool → List ValidationResult →
      Bool × List ValidationResult × FactChecker
  | fc, [], all_valid, acc => (all_valid, acc, fc)
  | fc, claim :: rest, all_valid, acc =>
    let is_lie := marked_lies.contains claim.claim_text
    let is_omission := marked_omissions.contains claim.claim_text
    let step := validateClaim fc claim character is_lie is_omission
    let all_valid1 :=
      if !step.1.is_valid && !step.1.is_lie then false else all_valid
    validateLoop character marked_lies marked_omissions step.2 rest
      all_valid1 (acc ++ [step.1])

/-- Embeds `FactChecker.validate_statement`. -/
def validateStatement (fc : FactChecker) (statement : String)
    (character : String) (marked_lies marked_omissions : List String) :
    Bool × List ValidationResult × FactChecker :=
  let claims := extractClaims fc.world_state.characters statement
  validateLoop character marked_lies marked_omissions fc claims true []

/-- The record returned by `FactChecker.get_validation_summary`. -/
structure ValidationSummary where
  total_validations : Nat
  valid_claims : Nat
  invalid_claims : Nat
  intentional_lies : Nat
  omissions : Nat
  accuracy_rate : ℚ
deriving Repr, DecidableEq

/-- Embeds `FactChecker.get_validation_summary`. -/
def getValidationSummary (fc : FactChecker) : ValidationSummary :=
  let total := fc.validation_history.length
  let valid := (fc.validation_history.filter (fun r => r.is_valid)).length
  let lies := (fc.validation_history.filter (fun r => r.is_lie)).length
  let omissions :=
    (fc.validation_history.filter (fun r => r.is_omission)).length
  { total_validations := total, valid_claims := valid,
    invalid_claims := total - valid, intentional_lies := lies,
    omissions := omissions,
    accuracy_rate := if total > 0 then (valid : ℚ) / (total : ℚ) * 100 else 0 }

/-!
Reachability: the mutating operations of `WorldState` as a datatype, so
invariants can be stated over every state an operation sequence can
produce.  A failing `add_schedule_entry` raises in Python before any
mutation, so it leaves the state unchanged.
-/

/-- One mutating call on the world state. -/
inductive WorldOp where
  | opAddFact (key value category : String) (is_public : Bool)
      (witnesses : List String) (source : String) (timestamp : Option String)
      (event_id : Option String) (schedule_day : Option Int)
      (schedule_period : Option String)
  | opAddEvent (event_id description timestamp location : String)
      (participants witnesses : List String)
      (details : List (String × String)) (sequence_order : Int)
      (caused_by : Option String)
  | opAddRelationship (char_a char_b rel_type description : String)
      (strength : Int) (is_public : Bool)
  | opAddLocation (location : String)
  | opAddCharacter (character : String)
  | opAddScheduleEntry (character : String) (day : Int)
      (period location activity : String) (with_characters : List String)
      (is_public : Bool) (witnesses : List String) (notes : String)
deriving Repr, DecidableEq

/-- Apply one operation; a rejected schedule entry leaves the state
unchanged, as the `ValueError` is raised before any mutation. -/
def applyOp (ws : WorldState) : WorldOp → WorldState
  | .opAddFact key value category is_public witnesses source timestamp
      event_id schedule_day schedule_period =>
    addFact ws key value category is_public witnesses source timestamp
      event_id schedule_day schedule_period
  | .opAddEvent event_id description timestamp location participants
      witnesses details sequence_order caused_by =>
    addEvent ws event_id description timestamp location participants
      witnesses details sequence_order caused_by
  | .opAddRelationship char_a char_b rel_type description strength
      is_public =>
    addRelationship ws char_a char_b rel_type description strength is_public
  | .opAddLocation location => addLocation ws location
  | .opAddCharacter character => addCharacter ws character
  | .opAddScheduleEntry character day period location activity
      with_characters is_public witnesses notes =>
    match addScheduleEntry ws character day period location activity
        with_characters is_public witnesses notes with
    | .ok ws1 => ws1
    | .error _ => ws

/-- A world state produced from the fresh state by some operation
sequence. -/
def Reachable (ws : WorldState) : Prop :=
  ∃ ops : List WorldOp, ws = ops.foldl applyOp initialWorldState

/-- The schedule-entry invariant: canonical period, and the witness list
contains the entry's character and every companion. -/
def ScheduleEntryOk (e : NPCScheduleEntry) : Prop :=
  e.time_block.period ∈ time_periods ∧
  e.character ∈ e.witnesses ∧
  ∀ c ∈ e.with_characters, c ∈ e.witnesses

/-- All stored schedule entries satisfy the entry invariant. -/
def SchedulesOk (ws : WorldState) : Prop :=
  ∀ p ∈ ws.npc_schedules, ∀ e ∈ p.2, ScheduleEntryOk e

/-! ## Helper lemmas -/

theorem contains_iff_mem {l : List String} {a : String} :
    l.contains a = true ↔ a ∈ l := List.elem_iff

theorem mem_insertSorted {α : Type} (le : α → α → Bool) (x a : α) :
    ∀ l : List α, a ∈ insertSorted le x l ↔ a = x ∨ a ∈ l := by
  intro l
  induction l with
  | nil => simp [insertSorted]
  | cons y ys ih =>
    by_cases h : le y x = true
    · simp only [insertSorted, if_pos h, List.mem_cons, ih] <;> tauto
    · simp only [insertSorted, if_neg h, List.mem_cons] <;> tauto

theorem mem_pySorted_aux {α : Type} (le : α → α → Bool) (a : α) :
    ∀ (l acc : List α),
      (a ∈ l.foldl (fun acc x => insertSorted le x acc) acc ↔
        a ∈ acc ∨ a ∈ l) := by
  intro l
  induction l with
  | nil => simp
  | cons x xs ih =>
    intro acc
    rw [List.foldl_cons, ih, mem_insertSorted]
    simp only [List.mem_cons]
    tauto

theorem mem_pySorted {α : Type} (le : α → α → Bool) (a : α) (l : List α) :
    a ∈ pySorted le l ↔ a ∈ l := by
  rw [pySorted, mem_pySorted_aux]
  simp

/-! ## Claim C2: fact visibility -/

/-- C2: for every fact stored in the world model and every character,
`character_knows_fact` returns true exactly when the fact is public or
the character is one of its witnesses. -/
theorem knows_iff_public_or_witness (ws : WorldState) (f : Fact)
    (c : String) (h : ws.facts.lookup f.key = some f) :
    characterKnowsFact ws c f.key = (f.is_public || f.witnesses.contains c) := by
  unfold characterKnowsFact
  rw [h]
  show (if f.is_public = true then true
        else if f.witnesses.contains c = true then true else false)
      = (f.is_public || f.witnesses.contains c)
  cases f.is_public <;> cases f.witnesses.contains c <;> rfl

def c2world : WorldState :=
  addFact initialWorldState "cause_of_death" "Poison" "general" false
    ["Nathan"] "world" none none none none

def c2fact : Fact :=
  { key := "cause_of_death", value := "Poison", category := "general",
    timestamp := none, source := "world", is_public := false,
    witnesses := ["Nathan"], event_id := none, schedule_day := none,
    schedule_period := none }

/-- Witness for C2 at a concrete non-public fact with one witness. -/
theorem knows_iff_public_or_witness_witness :
    characterKnowsFact c2world "Nathan" c2fact.key
      = (c2fact.is_public || c2fact.witnesses.contains "Nathan") :=
  knows_iff_public_or_witness c2world c2fact "Nathan" (by decide)

/-! ## Claim C3: verifying a location claim against the schedule -/

/-- C3: `verify_character_claim_time_location` returns `(true, none)`
exactly when the character has no schedule entry for the (day, period)
slot, and otherwise pairs the scheduled location with the result of a
case-insensitive comparison against the claimed location. -/
theorem verify_time_location_spec (ws : WorldState)
    (character claimed : String) (day : Int) (period : String) :
    (getCharacterLocationAtTime ws character day period = none →
      verifyCharacterClaimTimeLocation ws character claimed day period
        = (true, none)) ∧
    (∀ actual, getCharacterLocationAtTime ws character day period = some actual →
      (verifyCharacterClaimTimeLocation ws character claimed day period).2
          = some actual ∧
      ((verifyCharacterClaimTimeLocation ws character claimed day period).1
          = true ↔ strToLower actual = strToLower claimed)) ∧
    (getCharacterLocationAtTime ws character day period = none ↔
      ∀ e ∈ (ws.npc_schedules.lookup character).getD [],
        ¬(e.time_block.day = day ∧ e.time_block.period = period)) := by
  refine ⟨?_, ?_, ?_⟩
  · intro h
    unfold verifyCharacterClaimTimeLocation
    rw [h]
  · intro actual h
    unfold verifyCharacterClaimTimeLocation
    rw [h]
    exact ⟨rfl, by simp⟩
  · unfold getCharacterLocationAtTime
    rw [Option.map_eq_none']
    rw [List.find?_eq_none]
    unfold getCharacterSchedule
    cases hl : ws.npc_schedules.lookup character with
    | none => simp
    | some entries =>
      simp only [Option.getD_some]
      constructor
      · intro hall e he
        intro hcon
        have hmem : e ∈ pySorted scheduleKeyLe
            (entries.filter (fun e => e.time_block.day == day)) := by
          rw [mem_pySorted]
          rw [List.mem_filter]
          exact ⟨he, by simp [hcon.1]⟩
        have := hall e hmem
        simp [hcon.2] at this
      · intro hall e he
        rw [mem_pySorted, List.mem_filter] at he
        have := hall e he.1
        intro hp
        rw [beq_iff_eq] at hp
        exact this ⟨by simpa using he.2, hp⟩

def c3op : WorldOp :=
  WorldOp.opAddScheduleEntry "Nathan" 1 "evening" "Sitting Room"
    "Hosting the gathering" [] true [] ""

def c3world : WorldState := applyOp initialWorldState c3op

/-- Witness for C3: a scheduled entry mismatching the claimed location. -/
theorem verify_time_location_spec_witness :
    (verifyCharacterClaimTimeLocation c3world "Nathan" "Dining Room" 1
        "evening").2 = some "Sitting Room" ∧
    ((verifyCharacterClaimTimeLocation c3world "Nathan" "Dining Room" 1
        "evening").1 = true ↔
      strToLower "Sitting Room" = strToLower "Dining Room") :=
  (verify_time_location_spec c3world "Nathan" "Dining Room" 1
    "evening").2.1 "Sitting Room" (by decide)

/-! ## Claim C4: invalid periods are rejected without mutation -/

/-- C4: `add_schedule_entry` with a period outside the seven canonical
values fails with the invalid-period error, and the world state is left
unmodified. -/
theorem add_schedule_entry_invalid_period (ws : WorldState)
    (character : String) (day : Int) (period location activity : String)
    (with_characters : List String) (is_public : Bool)
    (witnesses : List String) (notes : String)
    (h : period ∉ time_periods) :
    addScheduleEntry ws character day period location activity
        with_characters is_public witnesses notes
      = Except.error ("Invalid period " ++ period) ∧
    applyOp ws (WorldOp.opAddScheduleEntry character day period location
        activity with_characters is_public witnesses notes) = ws := by
  have hc : time_periods.contains period = false := by
    cases hcc : time_periods.contains period
    · rfl
    · exact absurd (contains_iff_mem.mp hcc) h
  have h1 : addScheduleEntry ws character day period location activity
      with_characters is_public witnesses notes
        = Except.error ("Invalid period " ++ period) := by
    unfold addScheduleEntry
    rw [hc]
    simp
  refine ⟨h1, ?_⟩
  simp only [applyOp]
  rw [h1]

/-- Witness for C4 at the non-canonical period "midnight". -/
theorem add_schedule_entry_invalid_period_witness :
    addScheduleEntry initialWorldState "Nathan" 1 "midnight" "Sitting Room"
        "Sleeping" [] true [] ""
      = Except.error ("Invalid period " ++ "midnight") ∧
    applyOp initialWorldState (WorldOp.opAddScheduleEntry "Nathan" 1
        "midnight" "Sitting Room" "Sleeping" [] true [] "")
      = initialWorldState :=
  add_schedule_entry_invalid_period initialWorldState "Nathan" 1 "midnight"
    "Sitting Room" "Sleeping" [] true [] "" (by decide)

/-! ## More helper lemmas -/

theorem validateClaim_claim (fc : FactChecker) (claim : Claim)
    (character : String) (il io : Bool) :
    (validateClaim fc claim character il io).1.claim = claim := by
  cases il with
  | true => rfl
  | false =>
    cases io with
    | true => rfl
    | false =>
      unfold validateClaim
      dsimp only
      repeat' split
      all_goals rfl

theorem validateLoop_marked (character : String)
    (lies oms : List String) :
    ∀ (claims : List Claim) (fc : FactChecker) (b : Bool)
      (acc : List ValidationResult),
      (∀ r ∈ acc, lies.contains r.claim.claim_text = true →
        r.is_valid = true ∧ r.is_lie = true) →
      ∀ r ∈ (validateLoop character lies oms fc claims b acc).2.1,
        lies.contains r.claim.claim_text = true →
        r.is_valid = true ∧ r.is_lie = true := by
  intro claims
  induction claims with
  | nil =>
    intro fc b acc hacc
    simpa [validateLoop] using hacc
  | cons claim rest ih =>
    intro fc b acc hacc
    simp only [validateLoop]
    apply ih
    intro r hr
    rcases List.mem_append.mp hr with hro | hrn
    · exact hacc r hro
    · have hr1 : r = (validateClaim fc claim character
          (lies.contains claim.claim_text)
          (oms.contains claim.claim_text)).1 := by
        simpa using hrn
      subst hr1
      rw [validateClaim_claim]
      intro hcon
      rw [hcon]
      exact ⟨rfl, rfl⟩

theorem validateLoop_overall (character : String)
    (lies oms : List String) :
    ∀ (claims : List Claim) (fc : FactChecker) (b : Bool)
      (acc : List ValidationResult),
      ∃ rs, (validateLoop character lies oms fc claims b acc).2.1 = acc ++ rs ∧
        (validateLoop character lies oms fc claims b acc).1
          = (b && rs.all (fun r => r.is_valid || r.is_lie)) := by
  intro claims
  induction claims with
  | nil =>
    intro fc b acc
    exact ⟨[], by simp [validateLoop], by simp [validateLoop]⟩
  | cons claim rest ih =>
    intro fc b acc
    simp only [validateLoop]
    generalize validateClaim fc claim character
      (lies.contains claim.claim_text)
      (oms.contains claim.claim_text) = step
    obtain ⟨rs, h1, h2⟩ := ih step.2
      (if !step.1.is_valid && !step.1.is_lie then false else b)
      (acc ++ [step.1])
    refine ⟨step.1 :: rs, ?_, ?_⟩
    · rw [h1]
      simp
    · rw [h2]
      cases hv : step.1.is_valid <;> cases hl : step.1.is_lie <;>
        cases b <;>
        cases hall : rs.all (fun r => r.is_valid || r.is_lie) <;>
        simp [hv, hl, hall]

/-! ## Claim C5: validating a generic-key claim -/

/-- C5: an unmarked claim whose category is neither "location" nor
"person" is checked against the stored fact under its key: present keys
compare values case-insensitively (a mismatch is flagged as a lie citing
the stored truth), absent keys validate with no contradiction. -/
theorem validate_claim_generic_key (fc : FactChecker) (claim : Claim)
    (character : String)
    (hcat1 : claim.category ≠ "location") (hcat2 : claim.category ≠ "person") :
    (∀ f, fc.world_state.facts.lookup claim.key = some f →
      ((validateClaim fc claim character false false).1.is_valid
          = (strToLower f.value == strToLower claim.value) ∧
       (strToLower f.value ≠ strToLower claim.value →
         (validateClaim fc claim character false false).1.is_lie = true ∧
         (validateClaim fc claim character false false).1.reason
             = "Contradicts world state. Truth: " ++ f.value ∧
         (validateClaim fc claim character false false).1.world_truth
             = some f.value))) ∧
    (fc.world_state.facts.lookup claim.key = none →
      (validateClaim fc claim character false false).1.is_valid = true ∧
      (validateClaim fc claim character false false).1.reason
          = "No contradiction with known facts") := by
  have h1 : (claim.category == "location") = false := by simp [hcat1]
  have h2 : (claim.category == "person") = false := by simp [hcat2]
  constructor
  · intro f hf
    constructor
    · by_cases hv : strToLower f.value = strToLower claim.value
      · simp [validateClaim, h1, h2, hf, hv]
      · simp [validateClaim, h1, h2, hf, hv]
    · intro hv
      simp [validateClaim, h1, h2, hf, hv]
  · intro hf
    simp [validateClaim, h1, h2, hf]

def c5world : WorldState :=
  addFact initialWorldState "mentioned_time" "9pm" "general" true []
    "world" none none none none

def c5checker : FactChecker :=
  { world_state := c5world, validation_history := [] }

def c5claim : Claim :=
  { claim_text := "at 8pm", category := "time", key := "mentioned_time",
    value := "8pm" }

def c5fact : Fact :=
  { key := "mentioned_time", value := "9pm", category := "general",
    timestamp := none, source := "world", is_public := true,
    witnesses := [], event_id := none, schedule_day := none,
    schedule_period := none }

/-- Witness for C5: a stored "9pm" against a claimed "8pm". -/
theorem validate_claim_generic_key_witness :
    (validateClaim c5checker c5claim "Nathan" false false).1.is_valid
        = (strToLower "9pm" == strToLower "8pm") ∧
    (validateClaim c5checker c5claim "Nathan" false false).1.is_lie = true ∧
    (validateClaim c5checker c5claim "Nathan" false false).1.reason
        = "Contradicts world state. Truth: " ++ "9pm" ∧
    (validateClaim c5checker c5claim "Nathan" false false).1.world_truth
        = some "9pm" := by
  have h := (validate_claim_generic_key c5checker c5claim "Nathan"
    (by decide) (by decide)).1 c5fact (by decide)
  exact ⟨h.1, h.2 (by decide)⟩

/-! ## Claim C6: marked lies are recorded, never failed -/

/-- C6: a claim marked as an intentional lie — directly, or by listing
its exact text in the marked-lies list of `validate_statement` —
produces a result with `is_valid = true` and `is_lie = true`, whatever
validation would otherwise conclude. -/
theorem marked_lie_forces_valid_and_lie (fc : FactChecker) (claim : Claim)
    (character : String) :
    ((validateClaim fc claim character true false).1.is_valid = true ∧
     (validateClaim fc claim character true false).1.is_lie = true) ∧
    (∀ (statement : String) (marked_lies marked_omissions : List String)
       (r : ValidationResult),
      r ∈ (validateStatement fc statement character marked_lies
            marked_omissions).2.1 →
      marked_lies.contains r.claim.claim_text = true →
      r.is_valid = true ∧ r.is_lie = true) := by
  refine ⟨⟨rfl, rfl⟩, ?_⟩
  intro statement lies oms r hr hcon
  exact validateLoop_marked character lies oms
    (extractClaims fc.world_state.characters statement) fc true []
    (by simp) r (by simpa [validateStatement] using hr) hcon

def c6world : WorldState := addCharacter initialWorldState "Helena"

def c6checker : FactChecker :=
  { world_state := c6world, validation_history := [] }

def c6result : ValidationResult :=
  { is_valid := true,
    claim := { claim_text := "saw Helena", category := "person",
               key := "mentioned_person", value := "Helena" },
    reason := "Intentional lie by character", world_truth := none,
    is_lie := true, is_omission := false }

/-- Witness for C6: "saw Helena" marked as a lie in a full statement. -/
theorem marked_lie_forces_valid_and_lie_witness :
    c6result.is_valid = true ∧ c6result.is_lie = true :=
  (marked_lie_forces_valid_and_lie c6checker
      { claim_text := "x", category := "time", key := "mentioned_time",
        value := "y" } "Helena").2
    "I saw Helena" ["saw Helena"] [] c6result (by decide) (by decide)

/-! ## Claim C7: the validation history and its summary -/

def c7checker : FactChecker :=
  { world_state := initialWorldState, validation_history := [] }

def c7claim : Claim :=
  { claim_text := "I was in the library", category := "location",
    key := "mentioned_location", value := "library" }

/-- C7 counterexample: a result for a claim marked as an intentional lie
is returned without being appended to the validation history, so the
claimed append does not happen. -/
theorem intentional_result_not_appended :
    ¬((validateClaim c7checker c7claim "Nathan" true false).2.validation_history
      = c7checker.validation_history
        ++ [(validateClaim c7checker c7claim "Nathan" true false).1]) := by
  decide

/-- C7 (amended): results from the unmarked validation path are appended
to the history, intentional-lie and intentional-omission results are
returned without being appended, and `get_validation_summary` aggregates
over the history with `invalid = total − valid` and an accuracy rate of
`valid/total×100`, defined as 0 on an empty history. -/
theorem validation_history_discipline (fc : FactChecker) (claim : Claim)
    (character : String) :
    (validateClaim fc claim character true false).2 = fc ∧
    (validateClaim fc claim character false true).2 = fc ∧
    (validateClaim fc claim character false false).2.validation_history
      = fc.validation_history
        ++ [(validateClaim fc claim character false false).1] ∧
    (getValidationSummary fc).total_validations
      = fc.validation_history.length ∧
    (getValidationSummary fc).valid_claims
      = (fc.validation_history.filter (fun r => r.is_valid)).length ∧
    (getValidationSummary fc).invalid_claims
      = (getValidationSummary fc).total_validations
        - (getValidationSummary fc).valid_claims ∧
    (getValidationSummary fc).intentional_lies
      = (fc.validation_history.filter (fun r => r.is_lie)).length ∧
    (getValidationSummary fc).omissions
      = (fc.validation_history.filter (fun r => r.is_omission)).length ∧
    (fc.validation_history.length = 0 →
      (getValidationSummary fc).accuracy_rate = 0) ∧
    (fc.validation_history.length ≠ 0 →
      (getValidationSummary fc).accuracy_rate
        = ((getValidationSummary fc).valid_claims : ℚ)
          / ((getValidationSummary fc).total_validations : ℚ) * 100) := by
  refine ⟨rfl, rfl, rfl, rfl, rfl, rfl, rfl, rfl, ?_, ?_⟩
  · intro h
    simp [getValidationSummary, h]
  · intro h
    have hpos : 0 < fc.validation_history.length := Nat.pos_of_ne_zero h
    simp [getValidationSummary, hpos]

/-- Witness for C7's amended statement: empty history gives accuracy 0,
and the intentional-lie state is unchanged. -/
theorem validation_history_discipline_witness :
    (getValidationSummary c7checker).accuracy_rate = 0 ∧
    (validateClaim c7checker c7claim "Nathan" true false).2 = c7checker := by
  have h := validation_history_discipline c7checker c7claim "Nathan"
  exact ⟨h.2.2.2.2.2.2.2.2.1 (by decide), h.1⟩

/-! ## Claim C1: the overall statement verdict -/

/-- C1 (amended): `validate_statement` returns false exactly when some
per-claim result has `is_valid = false` and `is_lie = false`; a result
flagged as a lie — whether marked by the caller or flagged by the
generic-key mismatch path — never falsifies the overall verdict. -/
theorem validate_statement_overall_flag (fc : FactChecker)
    (statement character : String)
    (marked_lies marked_omissions : List String) :
    (validateStatement fc statement character marked_lies
        marked_omissions).1
      = ((validateStatement fc statement character marked_lies
            marked_omissions).2.1).all (fun r => r.is_valid || r.is_lie) := by
  simp only [validateStatement]
  obtain ⟨rs, h1, h2⟩ := validateLoop_overall character marked_lies
    marked_omissions (extractClaims fc.world_state.characters statement)
    fc true []
  rw [h1, h2]
  simp

def c1world : WorldState :=
  addFact initialWorldState "mentioned_time" "9pm" "general" true []
    "world" none none none none

def c1checker : FactChecker :=
  { world_state := c1world, validation_history := [] }

/-- C1 counterexample: the extracted time claim "last night" contradicts
the stored fact under "mentioned_time" and is not marked as a lie, yet
the overall verdict is true, because the mismatch path flags the result
with `is_lie = true` and the loop skips lie-flagged results. -/
theorem unmarked_contradiction_does_not_fail_statement :
    (validateStatement c1checker "last night" "Nathan" [] []).1 = true ∧
    ((validateStatement c1checker "last night" "Nathan" [] []).2.1.any
      (fun r => !r.is_valid)) = true := by
  exact ⟨rfl, rfl⟩

/-! ## Claim C8: the Nathan scenario with period "early_evening" -/

def c8op : WorldOp :=
  WorldOp.opAddScheduleEntry "Nathan" 1 "early_evening" "Sitting Room"
    "Hosting the gathering" [] true [] ""

/-- C8: the scenario's own period "early_evening" is not one of the seven
canonical periods, so the code rejects the schedule entry with the
invalid-period error, the state stays fresh, and the subsequent
verification returns `(true, none)` — not the `(false, "Sitting Room")`
the scenario expects. -/
theorem scenario_early_evening_rejected :
    addScheduleEntry initialWorldState "Nathan" 1 "early_evening"
        "Sitting Room" "Hosting the gathering" [] true [] ""
      = Except.error ("Invalid period early_evening") ∧
    applyOp initialWorldState c8op = initialWorldState ∧
    verifyCharacterClaimTimeLocation (applyOp initialWorldState c8op)
        "Nathan" "Dining Room" 1 "early_evening" = (true, none) := by
  refine ⟨rfl, by decide, by decide⟩

/-! ## Claim C9: the schedule invariant over all reachable states -/

theorem mem_foldl_witnessAdd_of_mem (l : List String) :
    ∀ (acc : List String) (x : String), x ∈ acc → x ∈ l.foldl witnessAdd acc := by
  induction l with
  | nil => intro acc x h; simpa using h
  | cons c cs ih =>
    intro acc x h
    rw [List.foldl_cons]
    apply ih
    unfold witnessAdd
    split
    · exact h
    · exact List.mem_append.mpr (Or.inl h)

theorem mem_foldl_witnessAdd (l : List String) :
    ∀ (acc : List String) (c : String), c ∈ l → c ∈ l.foldl witnessAdd acc := by
  induction l with
  | nil => intro acc c h; simp at h
  | cons d ds ih =>
    intro acc c h
    rw [List.foldl_cons]
    rcases List.mem_cons.mp h with h | h
    · subst h
      apply mem_foldl_witnessAdd_of_mem
      unfold witnessAdd
      split
      case isTrue hc => exact contains_iff_mem.mp hc
      case isFalse => exact List.mem_append.mpr (Or.inr (by simp))
    · exact ih _ _ h

theorem schedulesOk_addCharacter (ws : WorldState) (c : String)
    (h : SchedulesOk ws) : SchedulesOk (addCharacter ws c) := by
  unfold SchedulesOk addCharacter
  dsimp only
  split
  · exact h
  · intro p hp
    rcases List.mem_append.mp hp with hp | hp
    · exact h p hp
    · intro e he
      have hpe : p = (c, []) := by simpa using hp
      rw [hpe] at he
      simp at he

theorem periodIndex_lt_of_mem {p : String} (h : p ∈ time_periods) :
    periodIndex p < time_periods.length := by
  fin_cases h <;> decide

theorem schedulesOk_applyOp (ws : WorldState) (op : WorldOp)
    (h : SchedulesOk ws) : SchedulesOk (applyOp ws op) := by
  cases op with
  | opAddFact key value category is_public witnesses source timestamp
      event_id schedule_day schedule_period => exact h
  | opAddEvent event_id description timestamp location participants
      witnesses details sequence_order caused_by => exact h
  | opAddRelationship char_a char_b rel_type description strength
      is_public => exact h
  | opAddLocation location => exact h
  | opAddCharacter character => exact schedulesOk_addCharacter ws character h
  | opAddScheduleEntry character day period location activity
      with_characters is_public witnesses notes =>
    simp only [applyOp]
    cases hres : addScheduleEntry ws character day period location activity
        with_characters is_public witnesses notes with
    | error e => exact h
    | ok ws1 =>
      unfold addScheduleEntry at hres
      by_cases hc : time_periods.contains period = false
      · rw [if_pos hc] at hres
        cases hres
      · rw [if_neg hc] at hres
        have hper : period ∈ time_periods := by
          apply contains_iff_mem.mp
          cases hcc : time_periods.contains period
          · exact absurd hcc hc
          · rfl
        have hAC : SchedulesOk (addCharacter ws character) :=
          schedulesOk_addCharacter ws character h
        injection hres with hws1
        subst hws1
        intro p hp e he
        dsimp only at hp
        unfold schedAppend at hp
        rcases List.mem_map.mp hp with ⟨q, hq, hfq⟩
        by_cases hqc : (q.1 == character) = true
        · rw [if_pos hqc] at hfq
          subst hfq
          rcases List.mem_append.mp he with he | he
          · exact hAC q hq e he
          · rw [List.mem_singleton] at he
            subst he
            refine ⟨hper, ?_, ?_⟩
            · dsimp only
              apply mem_foldl_witnessAdd_of_mem
              split
              next hw => exact contains_iff_mem.mp hw
              next => exact List.mem_append.mpr (Or.inr (by simp))
            · intro c2 hc2
              dsimp only at hc2 ⊢
              exact mem_foldl_witnessAdd _ _ _ hc2
        · rw [if_neg hqc] at hfq
          subst hfq
          exact hAC q hq e he

/-- C9: in every reachable world state, each stored schedule entry has a
canonical period and a witness list containing the entry's character and
all companions, so the `(day, period-index)` sort key of
`get_character_schedule` is defined on every stored entry. -/
theorem reachable_schedule_invariant (ws : WorldState) (h : Reachable ws) :
    SchedulesOk ws ∧
    ∀ p ∈ ws.npc_schedules, ∀ e ∈ p.2,
      periodIndex e.time_block.period < time_periods.length := by
  obtain ⟨ops, rfl⟩ := h
  have hbase : SchedulesOk initialWorldState := by
    intro p hp
    simp [initialWorldState] at hp
  have hfold : ∀ (l : List WorldOp) (w : WorldState), SchedulesOk w →
      SchedulesOk (l.foldl applyOp w) := by
    intro l
    induction l with
    | nil => intro w hw; simpa using hw
    | cons o os ih =>
      intro w hw
      rw [List.foldl_cons]
      exact ih _ (schedulesOk_applyOp w o hw)
  have hok := hfold ops initialWorldState hbase
  exact ⟨hok, fun p hp e he => periodIndex_lt_of_mem (hok p hp e he).1⟩

def c9ops : List WorldOp :=
  [WorldOp.opAddScheduleEntry "Lila" 1 "noon" "Gallery" "Observing"
    ["Arthur"] true [] ""]

/-- Witness for C9: the invariant holds after one successful schedule
insertion from the fresh state. -/
theorem reachable_schedule_invariant_witness :
    SchedulesOk (c9ops.foldl applyOp initialWorldState) :=
  (reachable_schedule_invariant _ ⟨c9ops, rfl⟩).1

/-! ## Claim C10: person mentions are filtered case-sensitively -/

/-- C10: every person claim produced by extraction carries a value that
is, character for character, a registered name — the membership test is
case-sensitive even though the pattern match is case-insensitive — so
with only "Helena" registered, "I saw helena" yields no person claim. -/
theorem person_claims_case_sensitive :
    (∀ (chars : List String) (statement : String) (cl : Claim),
      cl ∈ extractClaims chars statement → cl.category = "person" →
      chars.contains cl.value = true) ∧
    (extractClaims ["Helena"] "I saw helena").filter
      (fun cl => cl.category == "person") = [] := by
  constructor
  · intro chars statement cl hmem hcat
    unfold extractClaims at hmem
    simp only [List.mem_append] at hmem
    rcases hmem with (h | h) | h
    · rcases List.mem_map.mp h with ⟨wg, _, hfq⟩
      rw [← hfq] at hcat
      simp at hcat
    · rcases List.mem_map.mp h with ⟨wg, _, hfq⟩
      rw [← hfq] at hcat
      simp at hcat
    · rcases List.mem_filterMap.mp h with ⟨wg, _, hsome⟩
      by_cases hct : chars.contains (String.mk wg.2) = true
      · rw [if_pos hct] at hsome
        have hcl : cl = Claim.mk (String.mk wg.1) "person"
            "mentioned_person" (String.mk wg.2) :=
          (Option.some.inj hsome).symm
        rw [hcl]
        exact hct
      · rw [if_neg hct] at hsome
        cases hsome
  · decide

/-- Witness for C10: with "Helena" registered, "I saw Helena" produces a
person claim whose value is exactly "Helena". -/
theorem person_claims_case_sensitive_witness :
    (["Helena"] : List String).contains "Helena" = true :=
  person_claims_case_sensitive.1 ["Helena"] "I saw Helena"
    (Claim.mk "saw Helena" "person" "mentioned_person" "Helena")
    (by decide) rfl

end DialogueEngine
